import Mathlib

/-!
Shallow embedding of the core of the duviz repository:

* `src/DirectoryTree.py` — the `DirectoryTree` class: line-record ingestion
  (`AddFolder`), the bottom-up aggregation pass (`Accum`), and the shared
  `path_split` helper.
* `src/duviz.py` — the `DirectoryTreeNode` class: `import_path`,
  `AllocatedSize`, and the proportional block-partition loop of
  `block_display`.

Modelling conventions:
* Python integers become `Int`; the oldest-file timestamp, parsed with
  `float(...)` in the source, becomes `Rat` (exact arithmetic; the decimal
  literals occurring in records are represented exactly, binary-float
  rounding is not modelled).
* Python dicts (`subnodes` / `_subnodes`) preserve insertion order and key
  every child by the component name, which is also stored as the child's
  `name`; they are modelled as insertion-ordered forests looked up by the
  child's `name` field.
* `os.path.split` is modelled with the POSIX separator.
* Python exceptions (IndexError, ValueError, ZeroDivisionError, TypeError,
  AssertionError) become `Except String` / `Option String` results.
-/

namespace Duviz

/-- The scalar fields initialised by `DirectoryTree.__init__`
(src/DirectoryTree.py lines 27-43). -/
structure DuStats where
  name : String
  totFold : Int
  myCount : Int
  totCount : Int
  mySize : Int
  myAlloc : Int
  totSize : Int
  totAlloc : Int
  maxFileSize : Int
  maxFileName : String
  oldFileDate : Rat
  oldFileName : String
  maxFoldSize : Int
  maxFoldName : String
deriving DecidableEq, Repr

mutual
/-- A `DirectoryTree` node: its scalar stats plus its `subnodes` dict. -/
inductive DirTree : Type where
| node : DuStats → Forest → DirTree

/-- The `subnodes` dict, in insertion order; each entry's dict key is the
child's `name` field (they are always equal in the source: the dict is keyed
by the path component the child is constructed from). -/
inductive Forest : Type where
| nil : Forest
| cons : DirTree → Forest → Forest
end

def DirTree.stats : DirTree → DuStats
| .node s _ => s

def DirTree.children : DirTree → Forest
| .node _ f => f

/-- `DirectoryTree.__init__(path)`: all counters zero, extremes at the `-1`
and empty-string sentinels (src/DirectoryTree.py lines 27-43). -/
def initStats (path : String) : DuStats :=
  { name := path, totFold := 0, myCount := 0, totCount := 0, mySize := 0,
    myAlloc := 0, totSize := 0, totAlloc := 0, maxFileSize := -1,
    maxFileName := "", oldFileDate := -1, oldFileName := "",
    maxFoldSize := -1, maxFoldName := "" }

def newDirTree (path : String) : DirTree := .node (initStats path) .nil

/-! ### Parsing helpers

`du_line.split('|')`, `int(...)` and `float(...)` from `AddFolder`.
Python's `int` and `float` also accept surrounding whitespace, underscores
and exponent notation; those forms never occur in `du.py` records and are
not modelled (they parse to `none` here). -/

/-- `s.split('|')`: split on every bar, keeping empty chunks. -/
def splitBar : List Char → List (List Char)
| [] => [[]]
| '|' :: rest => [] :: splitBar rest
| c :: rest =>
  match splitBar rest with
  | [] => [[c]]
  | chunk :: chunks => (c :: chunk) :: chunks

def digitsToNat : List Char → Option Nat
| [] => none
| ds =>
  if ds.all Char.isDigit then
    some (ds.foldl (fun n c => 10 * n + (c.toNat - 48)) 0)
  else none

/-- Python `int(s)` on a plain decimal string. -/
def parseInt (s : String) : Option Int :=
  match s.data with
  | '-' :: rest => (digitsToNat rest).map (fun n => -(n : Int))
  | '+' :: rest => (digitsToNat rest).map (fun n => (n : Int))
  | ds => (digitsToNat ds).map (fun n => (n : Int))

/-- Split a char list at the first dot. -/
def breakDot : List Char → List Char × Option (List Char)
| [] => ([], none)
| '.' :: rest => ([], some rest)
| c :: rest =>
  match breakDot rest with
  | (a, b) => (c :: a, b)

/-- Python `float(s)` on a plain decimal string, as an exact rational:
`a.b` with `k` fractional digits denotes `(a * 10 ^ k + b) / 10 ^ k`. -/
def parseRat (s : String) : Option Rat :=
  let core : List Char → Option Rat := fun cs =>
    match breakDot cs with
    | (ip, none) => (digitsToNat ip).map (fun n => (n : Rat))
    | (ip, some fp) =>
      match digitsToNat ip, digitsToNat fp with
      | some a, some b =>
        some (mkRat ((a : Int) * (10 : Int) ^ fp.length + (b : Int)) ((10 : Nat) ^ fp.length))
      | _, _ => none
  match s.data with
  | '-' :: rest => (core rest).map (fun q => -q)
  | '+' :: rest => core rest
  | ds => core ds

/-! ### `path_split` (src/DirectoryTree.py lines 4-24, identical in
src/duviz.py lines 85-105)

`os.path.split` is modelled for the POSIX separator: with `i` one past the
last slash, `head, tail = p[:i], p[i:]`, and `head` is stripped of trailing
slashes unless it is empty or all slashes. -/

def allSlash (cs : List Char) : Bool := cs.all (· = '/')

def rstripSlash (cs : List Char) : List Char :=
  (cs.reverse.dropWhile (· = '/')).reverse

def lastSlashEnd (p : List Char) : Nat :=
  match p.reverse.findIdx? (· = '/') with
  | some j => p.length - j
  | none => 0

/-- `os.path.split(p)` (POSIX). -/
def osSplit (p : List Char) : List Char × List Char :=
  let i := lastSlashEnd p
  let head := p.take i
  let tail := p.drop i
  let head' := if head ≠ [] ∧ ¬ allSlash head then rstripSlash head else head
  (head', tail)

/-- The `while True` loop of `path_split`, with `items` built by prepending
(as `items.insert(0, ...)` does). The fuel argument makes the loop total;
`path.length + 1` iterations are enough for every input on which the Python
loop terminates (each iteration strictly shortens a non-degenerate path).
On all-slash multi-character paths such as `"//"` the Python loop does not
terminate, and the model returns the items accumulated so far instead. -/
def pathSplitAux : Nat → List Char → List Char → List String → List String
| 0, _, _, items => items
| fuel + 1, path, base, items =>
  if path = base then String.mk path :: items
  else
    match osSplit path with
    | (path', tail) =>
      let items' := if tail ≠ [] then String.mk tail :: items else items
      if path' = [] then items'
      else if path' = ['/'] then String.mk path' :: items'
      else pathSplitAux fuel path' base items'

/-- `path_split(path, base)` (src/DirectoryTree.py lines 4-24). -/
def path_split (path base : String) : List String :=
  let b := base.data
  let b' := if b.getLast? = some '/' then rstripSlash b else b
  pathSplitAux (path.length + 1) path.data b' []

/-! ### `AddFolder` (src/DirectoryTree.py lines 45-80) -/

/-- The per-record payload parsed from one `du.py` line:
`count|size|alloc|largeFN|largeF_Size|oldFN|oldF_Date|path`. -/
structure DuRecord where
  myCount : Int
  mySize : Int
  myAlloc : Int
  maxFileName : String
  maxFileSize : Int
  oldFileName : String
  oldFileDate : Rat
deriving Repr

/-- Lines 60-78 of src/DirectoryTree.py: store the record's data as the
cursor's own stats, initialise the totals to the same values, bump
`totFold`, and set the large-file / oldest-file fields. -/
def applyRecord (r : DuRecord) (s : DuStats) : DuStats :=
  { s with myCount := r.myCount, mySize := r.mySize, myAlloc := r.myAlloc,
           totCount := r.myCount, totSize := r.mySize, totAlloc := r.myAlloc,
           totFold := s.totFold + 1,
           maxFileSize := r.maxFileSize, maxFileName := r.maxFileName,
           oldFileDate := r.oldFileDate, oldFileName := r.oldFileName }

/-- Walk the `subnodes` dict at key `c`, apply `k` to the child, creating
`DirectoryTree(c)` first when the key is missing (lines 55-58). -/
def updateF (c : String) (k : DirTree → DirTree) : Forest → Forest
| .nil => .cons (k (newDirTree c)) .nil
| .cons t f =>
  if t.stats.name = c then .cons (k t) f else .cons t (updateF c k f)

/-- The cursor walk of `AddFolder` (lines 54-58) followed by storing the
record at the final cursor (lines 60-78). -/
def addAt : List String → DuRecord → DirTree → DirTree
| [], r, .node s f => .node (applyRecord r s) f
| c :: rest, r, .node s f => .node s (updateF c (fun u => addAt rest r u) f)

/-- `DirectoryTree.AddFolder(self, du_line)` (src/DirectoryTree.py lines
45-80). The guard `if (len(parts) != 8): exit` in the source is a bare name
expression with no effect, so execution always continues to
`parts[7]`, which raises IndexError when there are fewer than 8 fields.
With more than 8 fields (a path containing a bar) the source silently
proceeds with `parts[7]`, the truncated path, exactly as modelled by
indexing the first 8 chunks. A ValueError from `int(...)`/`float(...)` is
also modelled as an error result; the partial subnode creation Python
performs before such a parse error is not modelled (no claim depends on
it, parsing happens after the walk only for lines 61 onward). -/
def AddFolder (t : DirTree) (du_line : String) : Except String DirTree :=
  let parts := (splitBar du_line.data).map String.mk
  if parts.length < 8 then .error "IndexError: list index out of range"
  else
    match (do
      let cnt ← parseInt (parts.getD 0 "")
      let sz ← parseInt (parts.getD 1 "")
      let al ← parseInt (parts.getD 2 "")
      let mfs ← parseInt (parts.getD 4 "")
      let ofd ← parseRat (parts.getD 6 "")
      pure (⟨cnt, sz, al, parts.getD 3 "", mfs, parts.getD 5 "", ofd⟩ : DuRecord)
      : Option DuRecord) with
    | some r =>
      let relPath := (path_split (parts.getD 7 "") t.stats.name).drop 1
      .ok (addAt relPath r t)
    | none => .error "ValueError: invalid literal"

/-- The ingestion loop of src/duviz2.py lines 34-35:
`for line in lines: dir_tree.AddFolder(line)`; an exception aborts it. -/
def ingestE (t : DirTree) : List String → Except String DirTree
| [] => .ok t
| l :: ls =>
  match AddFolder t l with
  | .ok t' => ingestE t' ls
  | .error e => .error e

/-! ### `Accum` (src/DirectoryTree.py lines 85-98) -/

/-- One iteration of the `Accum` loop body, folding an already-accumulated
child `c` into `self` (lines 88-98): add the four totals, then the
largest-file strict-greater test, then the oldest-file strict-less test. -/
def accumStep (s : DuStats) (c : DuStats) : DuStats :=
  let s1 := { s with totCount := s.totCount + c.totCount,
                     totAlloc := s.totAlloc + c.totAlloc,
                     totSize := s.totSize + c.totSize,
                     totFold := s.totFold + c.totFold }
  let s2 := if c.maxFileSize > s1.maxFileSize then
              { s1 with maxFileName := c.maxFileName, maxFileSize := c.maxFileSize }
            else s1
  if c.oldFileDate < s2.oldFileDate then
    { s2 with oldFileName := c.oldFileName, oldFileDate := c.oldFileDate }
  else s2

/-- Fold all accumulated children into `self`, in dict order. -/
def foldChildren (s : DuStats) : Forest → DuStats
| .nil => s
| .cons t f => foldChildren (accumStep s t.stats) f

mutual
/-- `DirectoryTree.Accum(self)`: recursively accumulate every subnode, then
fold each subnode's (accumulated) stats into `self`. The source interleaves
the two per child; since folding into `self` never feeds back into any
child's accumulation, accumulating all children first is the same function. -/
def accum : DirTree → DirTree
| .node s f => .node (foldChildren s (accumF f)) (accumF f)

def accumF : Forest → Forest
| .nil => .nil
| .cons t f => .cons (accum t) (accumF f)
end

/-! ### Derived observations on the DirectoryTree model -/

def sumTotCount : Forest → Int
| .nil => 0
| .cons t f => t.stats.totCount + sumTotCount f

def sumTotSize : Forest → Int
| .nil => 0
| .cons t f => t.stats.totSize + sumTotSize f

def sumTotAlloc : Forest → Int
| .nil => 0
| .cons t f => t.stats.totAlloc + sumTotAlloc f

def sumTotFold : Forest → Int
| .nil => 0
| .cons t f => t.stats.totFold + sumTotFold f

def lookupChild (c : String) : Forest → Option DirTree
| .nil => none
| .cons t f => if t.stats.name = c then some t else lookupChild c f

mutual
/-- Every node of the tree has its three totals equal to its own stats
(the state of any tree built by ingestion, before `Accum`). -/
def totEqMy : DirTree → Bool
| .node s f =>
  (decide (s.totSize = s.mySize) && decide (s.totAlloc = s.myAlloc) &&
   decide (s.totCount = s.myCount)) && totEqMyF f

def totEqMyF : Forest → Bool
| .nil => true
| .cons t f => totEqMy t && totEqMyF f
end

mutual
/-- The aggregation law of the spec, at every node: each total equals the
own value plus the sum of the direct children's totals. -/
def accLaw : DirTree → Bool
| .node s f =>
  (decide (s.totSize = s.mySize + sumTotSize f) &&
   decide (s.totAlloc = s.myAlloc + sumTotAlloc f) &&
   decide (s.totCount = s.myCount + sumTotCount f)) && accLawF f

def accLawF : Forest → Bool
| .nil => true
| .cons t f => accLaw t && accLawF f
end

/-! ## src/duviz.py — `DirectoryTreeNode` -/

/-- The fields of `DirectoryTreeNode.__init__` (src/duviz.py lines 115-131).
`None` sentinels are `Option.none`. -/
structure DvStats where
  name : String
  size : Option Int
  mySize : Option Int
  fileCount : Int
  myAllocSize : Option Int
  allocSize : Option Int
deriving DecidableEq, Repr

mutual
/-- A `DirectoryTreeNode`, with its `_subnodes` dict as an insertion-ordered
forest keyed on the child's `name`. -/
inductive DvNode : Type where
| node : DvStats → DvForest → DvNode

inductive DvForest : Type where
| nil : DvForest
| cons : DvNode → DvForest → DvForest
end

def DvNode.stats : DvNode → DvStats
| .node s _ => s

def DvNode.children : DvNode → DvForest
| .node _ f => f

def newDvNode (path : String) : DvNode :=
  .node { name := path, size := none, mySize := none, fileCount := 0,
          myAllocSize := none, allocSize := none } .nil

/-- `AllocatedSize(size)` (src/duviz.py lines 362-366), with the
process-wide `gClusterSize` passed explicitly. `math.ceil(size/gClusterSize)`
uses float true division in the source; it is modelled as the exact rational
ceiling. -/
def AllocatedSize (gClusterSize : Option Int) (size : Int) : Int :=
  match gClusterSize with
  | some c => ⌈(size : Rat) / (c : Rat)⌉ * c
  | none => 0

/-- The `assert cursor.size == None` and the four assignments of
`import_path` (src/duviz.py lines 148-153); on an already-set size the
assertion fires and nothing is written. -/
def setOwn (cluster : Option Int) (v : Int) (s : DvStats) : DvStats × Option String :=
  match s.size with
  | some _ => (s, some "AssertionError")
  | none =>
    ({ s with size := some v, mySize := some v,
              allocSize := some (AllocatedSize cluster v),
              myAllocSize := some (AllocatedSize cluster v) }, none)

/-- Walk the `_subnodes` dict at key `c` and apply the continuation `k` to
the child, creating `DirectoryTreeNode(c)` first when the key is missing
(src/duviz.py lines 143-146); `k`'s error outcome is passed through. -/
def insertDF (c : String) (k : DvNode → DvNode × Option String) : DvForest → DvForest × Option String
| .nil =>
  match k (newDvNode c) with
  | (t', e) => (.cons t' .nil, e)
| .cons t f =>
  if t.stats.name = c then
    match k t with
    | (t', e) => (.cons t' f, e)
  else
    match insertDF c k f with
    | (f', e) => (.cons t f', e)

/-- The cursor walk of `import_path` (lines 141-146) followed by the
terminal assignment (lines 148-153). Subnodes created while walking persist
even when the final assertion fires, exactly as in the mutating source. -/
def insertComps (cluster : Option Int) (v : Int) : List String → DvNode → DvNode × Option String
| [], .node s f =>
  match setOwn cluster v s with
  | (s', e) => (.node s' f, e)
| c :: rest, .node s f =>
  match insertDF c (fun u => insertComps cluster v rest u) f with
  | (f', e) => (.node s f', e)

/-- `DirectoryTreeNode.import_path(self, path, size)` (src/duviz.py lines
133-155), returning the updated tree and the assertion outcome. -/
def import_path (t : DvNode) (path : String) (size : Int) (cluster : Option Int) :
    DvNode × Option String :=
  insertComps cluster size ((path_split path t.stats.name).drop 1) t

/-! ### The proportional partition loop of `block_display`
(src/duviz.py lines 206-217) -/

def DvForest.toList : DvForest → List DvNode
| .nil => []
| .cons t f => t :: DvForest.toList f

/-- Insert into a name-sorted list, keeping existing entries first on ties
(Python's `sorted` is stable). -/
def insertByName (t : DvNode) : List DvNode → List DvNode
| [] => [t]
| u :: us =>
  if t.stats.name < u.stats.name then t :: u :: us
  else u :: insertByName t us

/-- `sorted(self._subnodes.values(), key=operator.attrgetter('name'))`. -/
def sortByName (l : List DvNode) : List DvNode :=
  l.foldr insertByName []

/-- The subdirectory loop of `block_display` (lines 210-217), restricted to
the quantities the partition is about: the running `cumsize`/`currpos`/
`lastpos` and each child's allotted span `currpos - lastpos`. A child whose
`size` is still `None` makes `cumsize += sd.size` raise TypeError; a zero
`self.size` makes `int(float(width * cumsize) / self.size)` raise
ZeroDivisionError. `int(float(...) / ...)` truncates the float quotient
toward zero; for the non-negative numerators and positive denominators the
claims quantify over this is floor division, i.e. `Int` division by a
positive divisor (float rounding at astronomically large sizes is not
modelled). -/
def spanLoop (width size : Int) : List (Option Int) → Int → Int → Except String (List Int)
| [], _, _ => .ok []
| none :: _, _, _ => .error "TypeError: unsupported operand"
| some c :: cs, cumsize, lastpos =>
  if size = 0 then .error "ZeroDivisionError: float division by zero"
  else
    let cum := cumsize + c
    let currpos := width * cum / size
    match spanLoop width size cs cum currpos with
    | .ok l => .ok ((currpos - lastpos) :: l)
    | .error e => .error e

/-- The spans `block_display(width, max_depth)` allots to the direct
children of a node (src/duviz.py lines 191-217): empty when the
`width < 1 or max_depth < 0` guard returns early, preceded by the summary
bars of lines 201-203 whose `size_renderer` calls raise TypeError when
`allocSize`/`size` is still `None`, then one span per child in name order. -/
def block_display_spans (width maxDepth : Int) : DvNode → Except String (List Int)
| .node s f =>
  if width < 1 ∨ maxDepth < 0 then .ok []
  else
    match s.allocSize, s.size with
    | none, _ => .error "TypeError: unsupported operand"
    | _, none => .error "TypeError: unsupported operand"
    | some _, some sz =>
      spanLoop width sz ((sortByName (DvForest.toList f)).map (fun t => t.stats.size)) 0 0

def dvLookupChild (c : String) : DvForest → Option DvNode
| .nil => none
| .cons t f => if t.stats.name = c then some t else dvLookupChild c f

/-- The pure value of the partition loop in the non-raising case: all child
sizes set and a non-zero denominator. -/
def spansOf (width size : Int) : List Int → Int → Int → List Int
| [], _, _ => []
| c :: cs, cumsize, lastpos =>
  let cum := cumsize + c
  let currpos := width * cum / size
  (currpos - lastpos) :: spansOf width size cs cum currpos

/-! ### Further observations used to state the claims -/

def isLeaf : DirTree → Bool
| .node _ .nil => true
| .node _ (.cons _ _) => false

def allLeaves : Forest → Bool
| .nil => true
| .cons t f => isLeaf t && allLeaves f

mutual
/-- All four total counters are non-negative, everywhere in the tree. -/
def nonnegTots : DirTree → Bool
| .node s f =>
  decide (0 ≤ s.totCount ∧ 0 ≤ s.totSize ∧ 0 ≤ s.totAlloc ∧ 0 ≤ s.totFold) &&
  nonnegF f

def nonnegF : Forest → Bool
| .nil => true
| .cons t f => nonnegTots t && nonnegF f
end

mutual
/-- Frame condition comparing a tree with its accumulated form, node by
node: the name, the own statistics, the `maxFold` fields and the child
structure are unchanged, and each total counter has not decreased. -/
def frameOK : DirTree → DirTree → Bool
| .node s f, .node s' f' =>
  decide (s'.name = s.name ∧ s'.myCount = s.myCount ∧ s'.mySize = s.mySize ∧
          s'.myAlloc = s.myAlloc ∧ s'.maxFoldSize = s.maxFoldSize ∧
          s'.maxFoldName = s.maxFoldName ∧ s.totCount ≤ s'.totCount ∧
          s.totSize ≤ s'.totSize ∧ s.totAlloc ≤ s'.totAlloc ∧
          s.totFold ≤ s'.totFold) &&
  frameF f f'

def frameF : Forest → Forest → Bool
| .nil, .nil => true
| .cons t f, .cons t' f' => frameOK t t' && frameF f f'
| .nil, .cons _ _ => false
| .cons _ _, .nil => false
end

/-- At one node: the accumulated `totFold` equals the pre-pass `totFold`
plus the sum of the direct children's accumulated `totFold`. -/
def foldLaw : DirTree → DirTree → Bool
| .node s _, .node s' f' => decide (s'.totFold = s.totFold + sumTotFold f')

mutual
/-- `foldLaw` at a tree and, recursively, at every matched descendant. -/
def foldLawAll : DirTree → DirTree → Bool
| .node s f, .node s' f' =>
  decide (s'.totFold = s.totFold + sumTotFold f') && foldLawPairs f f'

def foldLawPairs : Forest → Forest → Bool
| .nil, .nil => true
| .cons t f, .cons t' f' => foldLawAll t t' && foldLawPairs f f'
| .nil, .cons _ _ => false
| .cons _ _, .nil => false
end

/-! ### Concrete fixtures for the claims -/

def c1Lines : List String :=
  ["2|100|120|big|60|old|5.5|/root", "1|10|12|f|10|g|3.0|/root/a/b"]

def c1Tree : DirTree :=
  match ingestE (newDirTree "/root") c1Lines with
  | .ok t => t
  | .error _ => newDirTree ""

def c2Child : DvNode :=
  .node { name := "c", size := some 50, mySize := some 50, fileCount := 0,
          myAllocSize := some 0, allocSize := some 0 } .nil

/-- A node with total size 100 of which only 50 comes from its single child
(the other 50 from its own files, as `build_du_tree` produces via
`AddFile`). -/
def c2Node : DvNode :=
  .node { name := "p", size := some 100, mySize := some 50, fileCount := 1,
          myAllocSize := some 0, allocSize := some 0 } (.cons c2Child .nil)

def c3Child : DvNode :=
  .node { name := "c", size := some 7, mySize := some 7, fileCount := 0,
          myAllocSize := some 0, allocSize := some 0 } .nil

/-- A node with `size == 0` and one child. -/
def c3Node : DvNode :=
  .node { name := "p", size := some 0, mySize := some 0, fileCount := 0,
          myAllocSize := some 0, allocSize := some 0 } (.cons c3Child .nil)

def c5Tree : DirTree :=
  match ingestE (newDirTree "/root") ["1|10|10|f|10|g|100.0|/root/a"] with
  | .ok t => t
  | .error _ => newDirTree ""

def c6Tree : DirTree :=
  match ingestE (newDirTree "/root") ["0|0|0|f|5|g|3|/root/a"] with
  | .ok t => t
  | .error _ => newDirTree ""

def c7Child : DirTree :=
  .node { initStats "c" with
          myCount := 1, totCount := 1, mySize := 5, totSize := 5,
          myAlloc := 6, totAlloc := 6, totFold := 1 } .nil

def c7Tree : DirTree := .node (initStats "/r") (.cons c7Child .nil)

def c8Line : String := "0|1|2|f|3|g|4.0|/other/x"

def c8RecStats : DuStats :=
  { name := "x", totFold := 1, myCount := 0, totCount := 0, mySize := 1, myAlloc := 2,
    totSize := 1, totAlloc := 2, maxFileSize := 3, maxFileName := "f",
    oldFileDate := 4, oldFileName := "g", maxFoldSize := -1, maxFoldName := "" }

/-- What `AddFolder` actually builds for the non-descendant path
`/other/x` under a tree rooted at `/root`. -/
def c8Expected : DirTree :=
  .node (initStats "/root")
    (.cons (.node (initStats "other") (.cons (.node c8RecStats .nil) .nil)) .nil)

def c9DupLines : List String :=
  ["1|10|10|f|10|g|3.0|/root/a", "2|20|20|h|20|k|4.0|/root/a"]

def c9DupTree : DirTree :=
  match ingestE (newDirTree "/root") c9DupLines with
  | .ok t => t
  | .error _ => newDirTree ""

def c9BStats : DvStats :=
  { name := "b", size := some 5, mySize := some 5, fileCount := 0,
    myAllocSize := some 0, allocSize := some 0 }

/-- Inserting `/root/a/b` into a fresh tree rooted at `/root` creates
exactly the two nodes `a` (statistics still unset) and `b` (statistics
set). -/
def c9Expected : DvNode :=
  .node { name := "/root", size := none, mySize := none, fileCount := 0,
          myAllocSize := none, allocSize := none }
    (.cons (.node { name := "a", size := none, mySize := none, fileCount := 0,
                    myAllocSize := none, allocSize := none }
      (.cons (.node c9BStats .nil) .nil)) .nil)

def c10Tree : DirTree :=
  .node { initStats "/d" with myCount := 2, totCount := 2 }
    (.cons (.node { initStats "e" with totSize := 4, mySize := 4 } .nil) .nil)

end Duviz

namespace Duviz

/-! ## General lemmas -/

theorem accumStep_tots (s c : DuStats) :
    (accumStep s c).totCount = s.totCount + c.totCount ∧
    (accumStep s c).totSize = s.totSize + c.totSize ∧
    (accumStep s c).totAlloc = s.totAlloc + c.totAlloc ∧
    (accumStep s c).totFold = s.totFold + c.totFold ∧
    (accumStep s c).name = s.name ∧
    (accumStep s c).myCount = s.myCount ∧
    (accumStep s c).mySize = s.mySize ∧
    (accumStep s c).myAlloc = s.myAlloc ∧
    (accumStep s c).maxFoldSize = s.maxFoldSize ∧
    (accumStep s c).maxFoldName = s.maxFoldName := by
  refine ⟨?_, ?_, ?_, ?_, ?_, ?_, ?_, ?_, ?_, ?_⟩ <;>
  · unfold accumStep
    dsimp only
    split <;> split <;> rfl

theorem foldChildren_spec : ∀ (f : Forest) (s : DuStats),
    (foldChildren s f).totCount = s.totCount + sumTotCount f ∧
    (foldChildren s f).totSize = s.totSize + sumTotSize f ∧
    (foldChildren s f).totAlloc = s.totAlloc + sumTotAlloc f ∧
    (foldChildren s f).totFold = s.totFold + sumTotFold f ∧
    (foldChildren s f).name = s.name ∧
    (foldChildren s f).myCount = s.myCount ∧
    (foldChildren s f).mySize = s.mySize ∧
    (foldChildren s f).myAlloc = s.myAlloc ∧
    (foldChildren s f).maxFoldSize = s.maxFoldSize ∧
    (foldChildren s f).maxFoldName = s.maxFoldName
| .nil, s => by
  simp [foldChildren, sumTotCount, sumTotSize, sumTotAlloc, sumTotFold]
| .cons t g, s => by
  obtain ⟨i1, i2, i3, i4, i5, i6, i7, i8, i9, i10⟩ := foldChildren_spec g (accumStep s t.stats)
  obtain ⟨a1, a2, a3, a4, a5, a6, a7, a8, a9, a10⟩ := accumStep_tots s t.stats
  refine ⟨?_, ?_, ?_, ?_, ?_, ?_, ?_, ?_, ?_, ?_⟩ <;>
    simp only [foldChildren, sumTotCount, sumTotSize, sumTotAlloc, sumTotFold,
      i1, i2, i3, i4, i5, i6, i7, i8, i9, i10, a1, a2, a3, a4, a5, a6, a7, a8, a9, a10] <;>
    omega

/-- Equation for `accum` at a node. -/
theorem accum_node (s : DuStats) (f : Forest) :
    accum (.node s f) = .node (foldChildren s (accumF f)) (accumF f) := by
  simp [accum]

theorem totEqMy_new (p : String) : totEqMy (newDirTree p) = true := rfl

theorem totEqMyF_updateF (c : String) (k : DirTree → DirTree)
    (hknew : totEqMy (k (newDirTree c)) = true)
    (hk : ∀ u, totEqMy u = true → totEqMy (k u) = true) :
    ∀ f, totEqMyF f = true → totEqMyF (updateF c k f) = true
| .nil, _ => by simp [updateF, totEqMyF, hknew]
| .cons t g, h => by
  simp only [totEqMyF, Bool.and_eq_true] at h
  by_cases hc : t.stats.name = c
  · simp only [updateF, if_pos hc, totEqMyF, Bool.and_eq_true]
    exact ⟨hk t h.1, h.2⟩
  · simp only [updateF, if_neg hc, totEqMyF, Bool.and_eq_true]
    exact ⟨h.1, totEqMyF_updateF c k hknew hk g h.2⟩

theorem totEqMy_addAt : ∀ (cs : List String) (r : DuRecord) (t : DirTree),
    totEqMy t = true → totEqMy (addAt cs r t) = true
| [], r, .node s f, h => by
  simp only [totEqMy, Bool.and_eq_true] at h
  simp [addAt, totEqMy, applyRecord, h.2]
| c :: rest, r, .node s f, h => by
  simp only [totEqMy, Bool.and_eq_true] at h
  simp only [addAt, totEqMy, Bool.and_eq_true]
  refine ⟨h.1, ?_⟩
  exact totEqMyF_updateF c (fun u => addAt rest r u)
    (totEqMy_addAt rest r (newDirTree c) (totEqMy_new c))
    (fun u hu => totEqMy_addAt rest r u hu) f h.2

theorem totEqMy_AddFolder (t : DirTree) (l : String) (t' : DirTree)
    (h : AddFolder t l = .ok t') (ht : totEqMy t = true) : totEqMy t' = true := by
  simp only [AddFolder] at h
  split at h
  · cases h
  · split at h
    · cases h
      exact totEqMy_addAt _ _ _ ht
    · cases h

theorem totEqMy_ingestE : ∀ (ls : List String) (t t' : DirTree),
    ingestE t ls = .ok t' → totEqMy t = true → totEqMy t' = true
| [], t, t', h, ht => by
  simp only [ingestE] at h
  cases h
  exact ht
| l :: ls, t, t', h, ht => by
  simp only [ingestE] at h
  cases hAF : AddFolder t l with
  | ok t1 =>
    rw [hAF] at h
    exact totEqMy_ingestE ls t1 t' h (totEqMy_AddFolder t l t1 hAF ht)
  | error e =>
    rw [hAF] at h
    cases h

mutual
theorem accum_accLaw : ∀ (t : DirTree), totEqMy t = true → accLaw (accum t) = true
| .node s f, h => by
  simp only [totEqMy, Bool.and_eq_true, decide_eq_true_eq] at h
  obtain ⟨⟨⟨hsz, hal⟩, hct⟩, hf⟩ := h
  obtain ⟨i1, i2, i3, _, _, i6, i7, i8, _, _⟩ := foldChildren_spec (accumF f) s
  rw [accum_node]
  simp only [accLaw, DirTree.stats, DirTree.children, Bool.and_eq_true, decide_eq_true_eq]
  exact ⟨⟨⟨by rw [i2, i7, hsz], by rw [i3, i8, hal]⟩, by rw [i1, i6, hct]⟩,
         accumF_accLaw f hf⟩

theorem accumF_accLaw : ∀ (f : Forest), totEqMyF f = true → accLawF (accumF f) = true
| .nil, _ => rfl
| .cons t f, h => by
  simp only [totEqMyF, Bool.and_eq_true] at h
  simp only [accumF, accLawF, Bool.and_eq_true]
  exact ⟨accum_accLaw t h.1, accumF_accLaw f h.2⟩
end

end Duviz

namespace Duviz

theorem frameF_sum_bounds : ∀ (f f' : Forest), frameF f f' = true → nonnegF f = true →
    0 ≤ sumTotCount f' ∧ 0 ≤ sumTotSize f' ∧ 0 ≤ sumTotAlloc f' ∧ 0 ≤ sumTotFold f'
| .nil, .nil, _, _ => by
  simp [sumTotCount, sumTotSize, sumTotAlloc, sumTotFold]
| .nil, .cons _ _, hf, _ => by cases hf
| .cons _ _, .nil, hf, _ => by cases hf
| .cons (.node st ft) g, .cons (.node st' ft') g', hf, hn => by
  simp only [frameF, Bool.and_eq_true] at hf
  simp only [nonnegF, Bool.and_eq_true] at hn
  obtain ⟨ic, is', ia, if'⟩ := frameF_sum_bounds g g' hf.2 hn.2
  simp only [frameOK, Bool.and_eq_true, decide_eq_true_eq] at hf
  simp only [nonnegTots, Bool.and_eq_true, decide_eq_true_eq] at hn
  obtain ⟨⟨_, _, _, _, _, _, lc, ls, la, lf⟩, _⟩ := hf.1
  obtain ⟨⟨nc, ns, na, nf⟩, _⟩ := hn.1
  simp only [sumTotCount, sumTotSize, sumTotAlloc, sumTotFold, DirTree.stats]
  refine ⟨by omega, by omega, by omega, by omega⟩

mutual
theorem accum_frame : ∀ (t : DirTree), nonnegTots t = true → frameOK t (accum t) = true
| .node s f, h => by
  simp only [nonnegTots, Bool.and_eq_true, decide_eq_true_eq] at h
  obtain ⟨⟨hc, hs, ha, hf⟩, hrest⟩ := h
  have hfr := accumF_frame f hrest
  obtain ⟨bc, bs, ba, bf⟩ := frameF_sum_bounds f (accumF f) hfr hrest
  obtain ⟨i1, i2, i3, i4, i5, i6, i7, i8, i9, i10⟩ := foldChildren_spec (accumF f) s
  rw [accum_node]
  simp only [frameOK, Bool.and_eq_true, decide_eq_true_eq]
  exact ⟨⟨i5, i6, i7, i8, i9, i10, by omega, by omega, by omega, by omega⟩, hfr⟩

theorem accumF_frame : ∀ (f : Forest), nonnegF f = true → frameF f (accumF f) = true
| .nil, _ => rfl
| .cons t f, h => by
  simp only [nonnegF, Bool.and_eq_true] at h
  simp only [accumF, frameF, Bool.and_eq_true]
  exact ⟨accum_frame t h.1, accumF_frame f h.2⟩
end

mutual
theorem accum_foldLawAll : ∀ (t : DirTree), foldLawAll t (accum t) = true
| .node s f => by
  rw [accum_node]
  simp only [foldLawAll, Bool.and_eq_true, decide_eq_true_eq, DirTree.children]
  obtain ⟨_, _, _, i4, _⟩ := foldChildren_spec (accumF f) s
  exact ⟨by rw [i4], accumF_foldLawPairs f⟩

theorem accumF_foldLawPairs : ∀ (f : Forest), foldLawPairs f (accumF f) = true
| .nil => rfl
| .cons t f => by
  simp only [accumF, foldLawPairs, Bool.and_eq_true]
  exact ⟨accum_foldLawAll t, accumF_foldLawPairs f⟩
end

theorem accum_leaf (s : DuStats) : accum (.node s .nil) = .node s .nil := by
  rw [accum_node]
  simp [accumF, foldChildren]

theorem accumF_leaves : ∀ (f : Forest), allLeaves f = true → accumF f = f
| .nil, _ => rfl
| .cons (.node s ft) g, h => by
  simp only [allLeaves, Bool.and_eq_true] at h
  cases ft with
  | nil => simp only [accumF, accumF_leaves g h.2, accum_leaf]
  | cons u v => exact absurd h.1 (by simp [isLeaf])

end Duviz

namespace Duviz

/-! ### Lemmas about the proportional partition loop -/

theorem spanLoop_ok (width size : Int) (hs : ¬ size = 0) :
    ∀ (cs : List Int) (cum last : Int),
    spanLoop width size (cs.map some) cum last = .ok (spansOf width size cs cum last)
| [], cum, last => rfl
| c :: cs, cum, last => by
  simp only [List.map_cons, spanLoop, if_neg hs, spansOf,
    spanLoop_ok width size hs cs (cum + c) (width * (cum + c) / size)]

theorem spansOf_sum (width size : Int) :
    ∀ (cs : List Int) (cum : Int),
    (spansOf width size cs cum (width * cum / size)).sum
      = width * (cum + cs.sum) / size - width * cum / size
| [], cum => by simp [spansOf]
| c :: cs, cum => by
  have ih := spansOf_sum width size cs (cum + c)
  have ha : cum + (c + cs.sum) = cum + c + cs.sum := by ring
  simp only [spansOf, List.sum_cons, ih, ha]
  ring

theorem spansOf_nonneg (width size : Int) (hw : 0 ≤ width) (hs : 0 < size) :
    ∀ (cs : List Int) (cum : Int), (∀ c ∈ cs, 0 ≤ c) → 0 ≤ cum →
    ∀ x ∈ spansOf width size cs cum (width * cum / size), 0 ≤ x
| [], cum, _, _ => by simp [spansOf]
| c :: cs, cum, hcs, hcum => by
  intro x hx
  have hc : 0 ≤ c := hcs c (List.mem_cons_self c cs)
  simp only [spansOf, List.mem_cons] at hx
  rcases hx with hx | hx
  · have hmon : width * cum / size ≤ width * (cum + c) / size := by
      apply Int.ediv_le_ediv hs
      apply mul_le_mul_of_nonneg_left _ hw
      omega
    omega
  · exact spansOf_nonneg width size hw hs cs (cum + c)
      (fun d hd => hcs d (List.mem_cons_of_mem c hd)) (by omega) x hx

theorem insertByName_perm (t : DvNode) : ∀ (l : List DvNode),
    (insertByName t l).Perm (t :: l)
| [] => List.Perm.refl _
| u :: us => by
  simp only [insertByName]
  split
  · exact List.Perm.refl _
  · exact ((insertByName_perm t us).cons u).trans (List.Perm.swap t u us)

theorem sortByName_perm : ∀ (l : List DvNode), (sortByName l).Perm l
| [] => List.Perm.refl _
| t :: ts => by
  simp only [sortByName, List.foldr]
  exact (insertByName_perm t _).trans ((sortByName_perm ts).cons t)

end Duviz

namespace Duviz

/-! ### Lemmas about `import_path` -/

theorem setOwn_name (cl : Option Int) (v : Int) (s : DvStats) :
    ((setOwn cl v s).1).name = s.name := by
  unfold setOwn
  split <;> rfl

theorem insertComps_name : ∀ (cl : Option Int) (v : Int) (cs : List String) (t : DvNode),
    ((insertComps cl v cs t).1).stats.name = t.stats.name
| cl, v, [], .node s f => by
  simp only [insertComps]
  cases h : setOwn cl v s with
  | mk s1 e1 =>
    have hn := setOwn_name cl v s
    rw [h] at hn
    simpa [DvNode.stats] using hn
| cl, v, c :: rest, .node s f => by
  simp only [insertComps]
  cases h : insertDF c (fun u => insertComps cl v rest u) f with
  | mk f1 e1 => simp [DvNode.stats]

theorem insertDF_reinsert (c : String) (k k' : DvNode → DvNode × Option String)
    (hname : ∀ u, ((k u).1).stats.name = u.stats.name)
    (hk : ∀ u u', k u = (u', none) → k' u' = (u', some "AssertionError")) :
    ∀ (f f' : DvForest), insertDF c k f = (f', none) →
    insertDF c k' f' = (f', some "AssertionError")
| .nil, f', h => by
  simp only [insertDF] at h
  cases hkt : k (newDvNode c) with
  | mk t1 e1 =>
    rw [hkt] at h
    injection h with h1 h2
    subst h1
    subst h2
    have hn : t1.stats.name = c := by
      have := hname (newDvNode c)
      rw [hkt] at this
      simpa [newDvNode, DvNode.stats] using this
    have hk2 : k' t1 = (t1, some "AssertionError") := hk _ _ hkt
    simp [insertDF, hn, hk2]
| .cons t g, f', h => by
  simp only [insertDF] at h
  by_cases hc : t.stats.name = c
  · rw [if_pos hc] at h
    cases hkt : k t with
    | mk t1 e1 =>
      rw [hkt] at h
      injection h with h1 h2
      subst h1
      subst h2
      have hn1 : t1.stats.name = c := by
        have := hname t
        rw [hkt] at this
        simp only at this
        rw [this, hc]
      have hk2 : k' t1 = (t1, some "AssertionError") := hk _ _ hkt
      simp [insertDF, hn1, hk2]
  · rw [if_neg hc] at h
    cases hdf : insertDF c k g with
    | mk g1 e1 =>
      rw [hdf] at h
      injection h with h1 h2
      subst h1
      subst h2
      have ih := insertDF_reinsert c k k' hname hk g g1 hdf
      simp [insertDF, hc, ih]

theorem insertComps_reinsert : ∀ (cl : Option Int) (v v' : Int) (cs : List String) (t t' : DvNode),
    insertComps cl v cs t = (t', none) →
    insertComps cl v' cs t' = (t', some "AssertionError")
| cl, v, v', [], .node s f, t', h => by
  simp only [insertComps] at h
  cases hso : setOwn cl v s with
  | mk s1 e1 =>
    rw [hso] at h
    injection h with h1 h2
    subst h1
    subst h2
    unfold setOwn at hso
    split at hso
    · cases hso
    · injection hso with hs1 _
      simp only [insertComps, setOwn, ← hs1]
| cl, v, v', c :: rest, .node s f, t', h => by
  simp only [insertComps] at h
  cases hdf : insertDF c (fun u => insertComps cl v rest u) f with
  | mk f1 e1 =>
    rw [hdf] at h
    injection h with h1 h2
    subst h1
    subst h2
    have ih := insertDF_reinsert c (fun u => insertComps cl v rest u)
      (fun u => insertComps cl v' rest u)
      (fun u => insertComps_name cl v rest u)
      (fun u u' hu => insertComps_reinsert cl v v' rest u u' hu)
      f f1 hdf
    simp only [insertComps, ih]

end Duviz

namespace Duviz

/-! ## Claim theorems -/

/-- C1: for every tree built by line-record ingestion (a successful
`AddFolder` run over any list of lines starting from a fresh root), a single
`Accum` pass invoked once on the root establishes, at every node of the
tree, `totSize = mySize + Σ child.totSize` over the direct children, and
the same law for `totAlloc`/`myAlloc` and `totCount`/`myCount`. -/
theorem c1_totals_after_accum (r : String) (lines : List String) (t : DirTree)
    (h : ingestE (newDirTree r) lines = .ok t) :
    accLaw (accum t) = true :=
  accum_accLaw t (totEqMy_ingestE lines (newDirTree r) t h (totEqMy_new r))

/-- C1 witness: a concrete two-record ingestion (root record plus a record
two levels down, leaving the intermediate node `a` without a record). -/
theorem c1_totals_after_accum_witness : accLaw (accum c1Tree) = true :=
  c1_totals_after_accum "/root" c1Lines c1Tree rfl

/-- C2 counterexample: a node of total size 100 whose single child has size
50 (the rest being the node's own files), rendered at width 40, allots the
child `floor(40 * 50 / 100) = 20` columns, so the spans sum to 20, not to
the full width 40: the claim as stated is false. -/
theorem c2_partition_counterexample :
    block_display_spans 40 5 c2Node = .ok [20] ∧ ¬ (([20] : List Int).sum = 40) :=
  ⟨rfl, by decide⟩

/-- C2 (amended): for a node with `size = some sz > 0`, `allocSize` set,
width ≥ 1 and depth ≥ 0, whose children (in name order) all have
non-negative set sizes `cs`, the partition loop raises nothing and allots
spans that are each non-negative and sum to `floor(width * (Σ cs) / sz)`;
the sum equals `width` exactly when the children's sizes sum to the node's
total size (no gaps or overlaps arise between consecutive children, rounding
being absorbed by the cumulative positions, but the spans cover the full
width only when the node has no own-file contribution). -/
theorem c2_partition_amended (width maxDepth sz av : Int) (s : DvStats) (f : DvForest)
    (cs : List Int)
    (hw : 1 ≤ width) (hd : 0 ≤ maxDepth)
    (hsz : s.size = some sz) (hal : s.allocSize = some av) (hpos : 0 < sz)
    (hcs : (sortByName (DvForest.toList f)).map (fun u => u.stats.size) = cs.map some)
    (hnn : ∀ c ∈ cs, 0 ≤ c) :
    block_display_spans width maxDepth (.node s f) = .ok (spansOf width sz cs 0 0) ∧
    (spansOf width sz cs 0 0).sum = width * cs.sum / sz ∧
    (∀ x ∈ spansOf width sz cs 0 0, 0 ≤ x) ∧
    (cs.sum = sz → (spansOf width sz cs 0 0).sum = width) := by
  have hz : width * (0 : Int) / sz = 0 := by simp
  have hsum : (spansOf width sz cs 0 0).sum = width * cs.sum / sz := by
    have hx := spansOf_sum width sz cs 0
    rw [hz] at hx
    simpa using hx
  refine ⟨?_, hsum, ?_, ?_⟩
  · simp only [block_display_spans]
    rw [if_neg (by omega), hal, hsz, hcs]
    exact spanLoop_ok width sz (by omega) cs 0 0
  · have hx := spansOf_nonneg width sz (by omega) hpos cs 0 hnn le_rfl
    rw [hz] at hx
    exact hx
  · intro hcv
    rw [hsum, hcv]
    exact Int.mul_ediv_cancel width (by omega)

/-- C2 witness: the amended partition law at the counterexample node. -/
theorem c2_partition_amended_witness :
    block_display_spans 40 5 c2Node = .ok (spansOf 40 100 [50] 0 0) ∧
    (spansOf 40 100 [50] 0 0).sum = 40 * ([50] : List Int).sum / 100 ∧
    (∀ x ∈ spansOf 40 100 [50] 0 0, 0 ≤ x) ∧
    (([50] : List Int).sum = 100 → (spansOf 40 100 [50] 0 0).sum = 40) :=
  c2_partition_amended 40 5 100 0 _ _ [50] (by omega) (by omega) rfl rfl (by omega)
    (by decide) (by decide)

/-- C3 counterexample: a node with `size == 0` and one child is NOT
special-cased: `block_display` reaches `int(float(width * cumsize) /
self.size)` and raises ZeroDivisionError, contrary to the claim that no
arithmetic error is raised and children render at zero width. -/
theorem c3_zero_size_counterexample :
    block_display_spans 40 5 c3Node = .error "ZeroDivisionError: float division by zero" :=
  rfl

/-- C3 (amended): for every node with `size = some 0`, at least one child,
all child sizes set, width ≥ 1 and depth ≥ 0, `block_display` raises
ZeroDivisionError at the first child. Zero-size nodes render without
arithmetic error only when childless, or when the `width < 1 or max_depth
< 0` guard returns the empty rendering first. -/
theorem c3_zero_size_amended (width maxDepth av : Int) (s : DvStats) (f : DvForest)
    (hw : 1 ≤ width) (hd : 0 ≤ maxDepth)
    (hsz : s.size = some 0) (hal : s.allocSize = some av)
    (hne : ¬ DvForest.toList f = [])
    (hset : ∀ u ∈ DvForest.toList f, (u.stats.size).isSome = true) :
    block_display_spans width maxDepth (.node s f) =
      .error "ZeroDivisionError: float division by zero" := by
  simp only [block_display_spans]
  rw [if_neg (by omega), hal, hsz]
  cases hsort : sortByName (DvForest.toList f) with
  | nil =>
    have hl := (sortByName_perm (DvForest.toList f)).length_eq
    rw [hsort] at hl
    simp only [List.length_nil] at hl
    exact absurd (List.length_eq_zero.mp hl.symm) hne
  | cons u us =>
    have hu : u ∈ DvForest.toList f :=
      ((sortByName_perm (DvForest.toList f)).mem_iff).mp
        (by rw [hsort]; exact List.mem_cons_self u us)
    obtain ⟨c0, hc0⟩ := Option.isSome_iff_exists.mp (hset u hu)
    show spanLoop width 0 (List.map (fun t => t.stats.size) (u :: us)) 0 0
      = Except.error "ZeroDivisionError: float division by zero"
    rw [List.map_cons, hc0]
    simp [spanLoop]

/-- C3 witness: the amended statement at the counterexample node. -/
theorem c3_zero_size_amended_witness :
    block_display_spans 40 5 c3Node = .error "ZeroDivisionError: float division by zero" :=
  c3_zero_size_amended 40 5 0 _ _ (by omega) (by omega) rfl rfl
    (by simp [DvForest.toList])
    (by
      intro u hu
      simp only [DvForest.toList, List.mem_singleton] at hu
      subst hu
      rfl)

/-- C4: the field-count guard of `AddFolder` is the bare-name expression
`exit`, which has no effect, so a 5-field record is not skipped: `parts[7]`
raises IndexError, and the ingestion loop aborts without processing the
remaining well-formed records. -/
theorem c4_malformed_record_eval :
    AddFolder (newDirTree "/root") "0|1|2|3|4" = .error "IndexError: list index out of range" ∧
    ingestE (newDirTree "/root") ["0|1|2|3|4", "1|10|10|f|10|g|3.0|/root/a"]
      = .error "IndexError: list index out of range" :=
  ⟨rfl, rfl⟩

/-- C5: the oldest-file sentinel `-1` compares LESS than every real
timestamp, i.e. it behaves as negative infinity in `Accum`'s minimum, not
as positive infinity: after one pass on a root without a record whose child
carries timestamp 100, the root keeps `oldFileDate = -1` (and the empty
file name) instead of adopting the subtree's true minimum 100. -/
theorem c5_oldest_sentinel_eval :
    ingestE (newDirTree "/root") ["1|10|10|f|10|g|100.0|/root/a"] = .ok c5Tree ∧
    (lookupChild "a" c5Tree.children).map (fun u => u.stats.oldFileDate) = some 100 ∧
    (accum c5Tree).stats.oldFileDate = -1 ∧
    (accum c5Tree).stats.oldFileName = "" :=
  ⟨rfl, by decide, by decide, by decide⟩

/-- C6 counterexample: ingesting the single record for `/root/a` into a
tree rooted at `/root` leaves the root without a record (`totFold = 0`
before the pass); after `Accum` the root's `totFold` is 1, not
`1 + Σ child.totFold = 2`: the claimed equality fails. -/
theorem c6_folder_count_counterexample :
    ingestE (newDirTree "/root") ["0|0|0|f|5|g|3|/root/a"] = .ok c6Tree ∧
    ¬ ((accum c6Tree).stats.totFold = 1 + sumTotFold (accum c6Tree).children) :=
  ⟨rfl, by decide⟩

/-- C6 (amended): after a single `Accum` pass, every node's `totFold`
equals its pre-pass `totFold` (which `AddFolder` increments once per record
that resolved to the node — zero for intermediate nodes created only while
walking a deeper path) plus the sum of its direct children's post-pass
`totFold`; it equals `1 + Σ child.totFold`, and hence is at least 1, only
at nodes that received exactly one record. -/
theorem c6_folder_count_amended (t : DirTree) : foldLawAll t (accum t) = true :=
  accum_foldLawAll t

/-- C7 counterexample: nothing prevents or detects a second `Accum`: on a
root whose single child carries `totCount = 1`, the first pass makes the
root's `totCount` 1 and a second pass silently re-accumulates it to 2. -/
theorem c7_double_accum_counterexample :
    (accum c7Tree).stats.totCount = 1 ∧
    (accum (accum c7Tree)).stats.totCount = 2 :=
  ⟨by decide, by decide⟩

/-- C7 (amended): `Accum` carries no already-aggregated flag and running it
twice double-counts: for a root whose children are all leaves, the second
invocation adds the children's totals again, yielding
`own + 2 * Σ child.total` for all four total counters. -/
theorem c7_double_accum_amended (s : DuStats) (f : Forest) (h : allLeaves f = true) :
    (accum (accum (.node s f))).stats.totCount = s.totCount + 2 * sumTotCount f ∧
    (accum (accum (.node s f))).stats.totSize = s.totSize + 2 * sumTotSize f ∧
    (accum (accum (.node s f))).stats.totAlloc = s.totAlloc + 2 * sumTotAlloc f ∧
    (accum (accum (.node s f))).stats.totFold = s.totFold + 2 * sumTotFold f := by
  have hacc := accumF_leaves f h
  obtain ⟨i1, i2, i3, i4, _⟩ := foldChildren_spec f s
  obtain ⟨j1, j2, j3, j4, _⟩ := foldChildren_spec f (foldChildren s f)
  rw [accum_node, hacc, accum_node, hacc]
  simp only [DirTree.stats]
  exact ⟨by omega, by omega, by omega, by omega⟩

/-- C7 witness: the amended double-counting law at the counterexample
tree. -/
theorem c7_double_accum_amended_witness :
    (accum (accum (DirTree.node (initStats "/r") (.cons c7Child .nil)))).stats.totCount
      = (initStats "/r").totCount + 2 * sumTotCount (.cons c7Child .nil) ∧
    (accum (accum (DirTree.node (initStats "/r") (.cons c7Child .nil)))).stats.totSize
      = (initStats "/r").totSize + 2 * sumTotSize (.cons c7Child .nil) ∧
    (accum (accum (DirTree.node (initStats "/r") (.cons c7Child .nil)))).stats.totAlloc
      = (initStats "/r").totAlloc + 2 * sumTotAlloc (.cons c7Child .nil) ∧
    (accum (accum (DirTree.node (initStats "/r") (.cons c7Child .nil)))).stats.totFold
      = (initStats "/r").totFold + 2 * sumTotFold (.cons c7Child .nil) :=
  c7_double_accum_amended (initStats "/r") (.cons c7Child .nil) (by decide)

/-- C8 counterexample: for the non-descendant path `/other/x` under a tree
rooted at `/root`, `AddFolder` does not fail at all: it returns normally
and has created the subnode `other` (with `x` below it) under the root. -/
theorem c8_nondescendant_counterexample :
    AddFolder (newDirTree "/root") c8Line = .ok c8Expected ∧
    (lookupChild "other" c8Expected.children).isSome = true :=
  ⟨rfl, rfl⟩

/-- C8 (amended): for a non-descendant absolute path, `path_split` ends at
the filesystem root and returns `['/', ...components]`; `AddFolder` drops
only the first element and silently grafts the remaining components as
descendants of the tree root, misfiling the record's statistics there
(here: `mySize = 1` stored at `/root/other/x`), with no error raised. -/
theorem c8_nondescendant_amended :
    path_split "/other/x" "/root" = ["/", "other", "x"] ∧
    AddFolder (newDirTree "/root") c8Line = .ok c8Expected ∧
    ((lookupChild "other" c8Expected.children).map
      (fun u => (lookupChild "x" u.children).map (fun w => w.stats.mySize)))
      = some (some 1) :=
  ⟨rfl, rfl, by decide⟩

/-- C9 counterexample: in `DirectoryTree.AddFolder`, re-ingesting a record
for the same path is not rejected: the second record returns normally and
silently overwrites the node's own statistics (mySize 10 becomes 20). -/
theorem c9_overwrite_counterexample :
    ingestE (newDirTree "/root") c9DupLines = .ok c9DupTree ∧
    (AddFolder (newDirTree "/root") "1|10|10|f|10|g|3.0|/root/a").toOption.map
      (fun t => (lookupChild "a" t.children).map (fun u => u.stats.mySize))
      = some (some 10) ∧
    (lookupChild "a" c9DupTree.children).map (fun u => u.stats.mySize) = some 20 :=
  ⟨rfl, by decide, by decide⟩

/-- C9 (amended): `import_path` (src/duviz.py) creates exactly the missing
intermediate nodes — inserting `/root/a/b` into a fresh `/root` tree
creates exactly `a` (statistics unset) and `b` — and re-inserting a path
whose terminal node's own statistics are already set walks to the same node
creating nothing, leaves the tree unchanged, and is rejected through the
`size == None` sentinel assertion; `DirectoryTree.AddFolder`, by contrast,
silently overwrites own statistics (see the counterexample). -/
theorem c9_insert_amended :
    import_path (newDvNode "/root") "/root/a/b" 5 none = (c9Expected, none) ∧
    ∀ (cl : Option Int) (v v' : Int) (p : String) (t t' : DvNode),
      import_path t p v cl = (t', none) →
      import_path t' p v' cl = (t', some "AssertionError") := by
  constructor
  · exact rfl
  · intro cl v v' p t t' h
    unfold import_path at h ⊢
    have hname : t'.stats.name = t.stats.name := by
      have hc := insertComps_name cl v ((path_split p t.stats.name).drop 1) t
      rw [h] at hc
      simpa using hc
    rw [hname]
    exact insertComps_reinsert cl v v' _ t t' h

/-- C9 witness: re-inserting `/root/a/b` into the tree produced by its
first insertion returns the same tree with an AssertionError. -/
theorem c9_insert_amended_witness :
    import_path c9Expected "/root/a/b" 7 none = (c9Expected, some "AssertionError") :=
  c9_insert_amended.2 none 5 7 "/root/a/b" (newDvNode "/root") c9Expected rfl

/-- C10: one `Accum` invocation leaves every node's name, own statistics
(`myCount`, `mySize`, `myAlloc`), `maxFold` fields and child structure
unchanged (no child added, removed, renamed or reordered), and — given
non-negative totals everywhere, as any real record set produces — never
decreases any of the four total counters. -/
theorem c10_accum_frame (t : DirTree) (h : nonnegTots t = true) :
    frameOK t (accum t) = true :=
  accum_frame t h

/-- C10 witness: the frame condition at a small concrete tree. -/
theorem c10_accum_frame_witness : frameOK c10Tree (accum c10Tree) = true :=
  c10_accum_frame c10Tree (by decide)

end Duviz
